import Mathlib

set_option maxRecDepth 20000

/-!
Shallow embedding of the swap-metrics aggregation engine of the
`nearm-swap-posthog-dashboard` repository, together with theorems checking its
natural-language specification.

Modelling conventions:
* `Decimal` values (decimal.js, arbitrary precision) are modelled as `ℚ`.
* Timestamps (`Date.getTime()` milliseconds) are modelled as `ℤ`.
* JS `Record`/`Map` objects are modelled as association lists in insertion
  order (`upsert` overwrites in place, `updateEntry` is get-or-create-then-
  mutate); JS `Set`s are modelled as duplicate-free lists in insertion order.
* `Decimal.toNumber()` is modelled as the identity on `ℚ` (the exact value is
  handed to the output object); `toFixed(2)` is modelled by rounding to an
  integer number of hundredths.
-/

namespace SwapDash

/-! ## Decimal-string parsing (`new Decimal(amountStr)`)

`new Decimal(s)` throws on a malformed string; we model the accepted plain
decimal syntax: optional sign, digits with at most one decimal point (at least
one digit overall), and an optional integer exponent. -/

/-- Numeric value of a list of decimal digit characters. -/
def digitsToNat (ds : List Char) : ℕ :=
  ds.foldl (fun n c => 10 * n + (c.toNat - 48)) 0

/-- Parse the exponent part (after an `e`/`E`): optional sign, then digits. -/
def parseExpPart : List Char → Option ℤ
  | [] => none
  | '+' :: cs =>
      if cs ≠ [] ∧ cs.all Char.isDigit then some (digitsToNat cs : ℤ) else none
  | '-' :: cs =>
      if cs ≠ [] ∧ cs.all Char.isDigit then some (-(digitsToNat cs : ℤ)) else none
  | cs =>
      if cs.all Char.isDigit then some (digitsToNat cs : ℤ) else none

/-- Parse the mantissa (digits with at most one dot); returns its value and the
unconsumed rest of the string. -/
def parseMantissa (cs : List Char) : Option (ℚ × List Char) :=
  let ip := cs.takeWhile Char.isDigit
  let r1 := cs.dropWhile Char.isDigit
  match r1 with
  | '.' :: r2 =>
      let fp := r2.takeWhile Char.isDigit
      let r3 := r2.dropWhile Char.isDigit
      if ip.isEmpty ∧ fp.isEmpty then none
      else some ((digitsToNat (ip ++ fp) : ℚ) / (10 : ℚ) ^ fp.length, r3)
  | _ =>
      if ip.isEmpty then none else some ((digitsToNat ip : ℚ), r1)

/-- `parseDecimal s` is `some q` iff `new Decimal(s)` succeeds with value `q`
(on the plain decimal grammar), and `none` where the constructor throws. -/
def parseDecimal (s : String) : Option ℚ :=
  let cs := s.data
  let signAndRest : ℚ × List Char :=
    match cs with
    | '+' :: r => (1, r)
    | '-' :: r => (-1, r)
    | r => (1, r)
  match parseMantissa signAndRest.2 with
  | none => none
  | some (m, rest) =>
      match rest with
      | [] => some (signAndRest.1 * m)
      | 'e' :: es => (parseExpPart es).map (fun e => signAndRest.1 * m * (10 : ℚ) ^ e)
      | 'E' :: es => (parseExpPart es).map (fun e => signAndRest.1 * m * (10 : ℚ) ^ e)
      | _ => none

/-! ## Association-list primitives (JS `Record`/`Map` semantics) -/

/-- Lookup in an association list (JS property read `obj[k]`). -/
def findVal {α : Type} : List (String × α) → String → Option α
  | [], _ => none
  | (k, v) :: rest, q => if k = q then some v else findVal rest q

/-- Insert-or-overwrite (JS property write `obj[k] = v`); an existing key keeps
its position, a new key is appended. -/
def upsert {α : Type} : List (String × α) → String → α → List (String × α)
  | [], k, v => [(k, v)]
  | (k', v') :: rest, k, v =>
      if k' = k then (k, v) :: rest else (k', v') :: upsert rest k v

/-- Get-or-create (with `init`) then mutate with `f` (the `getPairMetrics` /
`getAccountMetrics` pattern followed by in-place mutation). -/
def updateEntry {α : Type} : List (String × α) → String → α → (α → α) → List (String × α)
  | [], k, init, f => [(k, f init)]
  | (k', v) :: rest, k, init, f =>
      if k' = k then (k', f v) :: rest else (k', v) :: updateEntry rest k init f

/-- JS `Set.add`: append iff not already present. -/
def addToSet (s : List String) (x : String) : List String :=
  if x ∈ s then s else s ++ [x]

/-! ## String helpers (structural models of the JS string methods used) -/

/-- ASCII lower-casing of one character (`toLowerCase` on the ASCII ids used). -/
def charToLower (c : Char) : Char :=
  if 'A' ≤ c ∧ c ≤ 'Z' then Char.ofNat (c.toNat + 32) else c

/-- `s.toLowerCase()`. -/
def strToLower (s : String) : String := ⟨s.data.map charToLower⟩

/-- Whitespace recognised by `s.trim()`. -/
def isJsSpace (c : Char) : Bool := c = ' ' ∨ c = '\t' ∨ c = '\n' ∨ c = '\r'

/-- `s.trim()`: strip leading and trailing whitespace. -/
def strTrim (s : String) : String :=
  ⟨((s.data.dropWhile isJsSpace).reverse.dropWhile isJsSpace).reverse⟩

/-- Drop the first `n` characters (`s.replace(/^intents:/, '')` after a
successful `startsWith` check drops the 8-character namespace). -/
def strDropChars (s : String) (n : ℕ) : String := ⟨s.data.drop n⟩

/-- `s.includes(pat)`: substring occurrence test. -/
def listHasInfix (pat : List Char) : List Char → Bool
  | [] => pat.isEmpty
  | c :: rest => pat.isPrefixOf (c :: rest) || listHasInfix pat rest

/-! ## Token Classifier (`tokenMapping.ts`) -/

/-- `baseMap`: intent symbol / contract address → internal Prices API id. -/
def baseMap : List (String × String) := [
  ("zcash", "zcash"),
  ("melania", "melania-meme"),
  ("bera", "berachain-bera"),
  ("aurora", "aurora-near"),
  ("shib", "shiba-inu"),
  ("gmx", "gmx"),
  ("mog", "mog-coin"),
  ("brett", "based-brett"),
  ("sweat", "sweatcoin"),
  ("turbo", "turbo"),
  ("wif", "dogwifcoin"),
  ("bome", "book-of-meme"),
  ("blackdragon", "black-dragon"),
  ("shitzu", "shitzu"),
  ("purge", "forgive-me-father"),
  ("brrr", "burrow"),
  ("gno", "gnosis"),
  ("cow", "cow-protocol"),
  ("safe", "safe"),
  ("usdc", "usd-coin"),
  ("trump", "official-trump"),
  ("near", "near"),
  ("usdt", "tether"),
  ("dai", "dai"),
  ("eth", "ethereum"),
  ("btc", "bitcoin"),
  ("pepe", "pepe"),
  ("link", "chainlink"),
  ("uni", "uniswap"),
  ("arb", "arbitrum"),
  ("aave", "aave"),
  ("sol", "solana"),
  ("doge", "dogecoin"),
  ("xrp", "ripple"),
  ("abg", "abg-966.meme-cooking.near"),
  ("ref", "token.v2.ref-finance.near"),
  ("mpdao", "mpdao-token.near"),
  ("hapi", "d9c2d319cd7e6177336b0a9c93c21cb48d84fb54.factory.bridge.near"),
  ("score", "score.aidols.near"),
  ("kaito", "kaito"),
  ("trx", "tron"),
  ("tron", "tron"),
  ("cbbtc", "coinbase-wrapped-btc"),
  ("bnb", "binancecoin"),
  ("pol", "matic-network"),
  ("sui", "sui"),
  ("gnosis", "gnosis"),
  ("aptos", "aptos"),
  ("cardano", "cardano"),
  ("kat", "kat"),
  ("npro", "npro"),
  ("public", "public-ai"),
  ("rhea", "rhea"),
  ("wbtc", "wrapped-bitcoin"),
  ("ltc", "litecoin"),
  ("itlx", "itlx"),
  ("near-native", "near"),
  ("noear", "noear-324.meme-cooking.near"),
  ("gnear", "gnear-229.meme-cooking.near"),
  ("eth.bridge.near", "ethereum"),
  ("usdt.tether-token.near", "tether"),
  ("token.sweat", "sweatcoin"),
  ("token.burrow.near", "burrow"),
  ("blackdragon.tkn.near", "black-dragon"),
  ("token.0xshitzu.near", "shitzu"),
  ("score.aidols.near", "score.aidols.near"),
  ("zec.omft.near", "zcash"),
  ("xrp.omft.near", "ripple"),
  ("kat.token0.near", "kat"),
  ("a35923162c49cf95e6bf26623385eb431ad920d3.factory.bridge.near", "matic-network"),
  ("npro.nearmobile.near", "npro"),
  ("token.publicailab.near", "public-ai"),
  ("token.rhealab.near", "rhea"),
  ("itlx.intellex_xyz.near", "itlx"),
  ("mpdao-token.near", "mpdao-token.near"),
  ("token.v2.ref-finance.near", "token.v2.ref-finance.near"),
  ("17208628f84f5d6ad33f0da3bbbeb27ffcb398eac501a31bd6ad2011e36133a1",
   "17208628f84f5d6ad33f0da3bbbeb27ffcb398eac501a31bd6ad2011e36133a1"),
  ("aaaaaa20d9e0e2461697782ef11675f668207961.factory.bridge.near",
   "aaaaaa20d9e0e2461697782ef11675f668207961.factory.bridge.near"),
  ("d9c2d319cd7e6177336b0a9c93c21cb48d84fb54.factory.bridge.near",
   "d9c2d319cd7e6177336b0a9c93c21cb48d84fb54.factory.bridge.near")
]

/-- `nativeToIntentMap`: native NEAR token → its intent equivalent. -/
def nativeToIntentMap : List (String × String) := [
  ("near-native", "intents:near"),
  ("usdt.tether-token.near", "intents:usdt"),
  ("17208628f84f5d6ad33f0da3bbbeb27ffcb398eac501a31bd6ad2011e36133a1", "intents:usdc"),
  ("eth.bridge.near", "intents:eth"),
  ("zec.omft.near", "intents:zcash"),
  ("xrp.omft.near", "intents:xrp"),
  ("a35923162c49cf95e6bf26623385eb431ad920d3.factory.bridge.near", "intents:pol"),
  ("npro.nearmobile.near", "intents:npro"),
  ("kat.token0.near", "intents:kat"),
  ("token.publicailab.near", "intents:public"),
  ("token.rhealab.near", "intents:rhea"),
  ("itlx.intellex_xyz.near", "intents:itlx"),
  ("token.sweat", "intents:sweat"),
  ("token.burrow.near", "intents:brrr"),
  ("blackdragon.tkn.near", "intents:blackdragon"),
  ("token.0xshitzu.near", "intents:shitzu"),
  ("token.v2.ref-finance.near", "intents:ref"),
  ("mpdao-token.near", "intents:mpdao"),
  ("score.aidols.near", "intents:score"),
  ("d9c2d319cd7e6177336b0a9c93c21cb48d84fb54.factory.bridge.near", "intents:hapi"),
  ("aaaaaa20d9e0e2461697782ef11675f668207961.factory.bridge.near", "intents:aurora")
]

/-- The reverse map built at module load: `intentToNativeMap[intent.toLowerCase()] = native`. -/
def intentToNativeMap : List (String × String) :=
  nativeToIntentMap.map (fun p => (strToLower p.2, p.1))

/-- `isDepositWithdrawPair`: true iff the pair swaps a native token with its
intent equivalent (deposit) or back (withdraw). -/
def isDepositWithdrawPair (tokenInId tokenOutId : String) : Bool :=
  let tokenIn := strToLower tokenInId
  let tokenOut := strToLower tokenOutId
  match findVal nativeToIntentMap tokenIn with
  | some intentEquivalent =>
      if strToLower intentEquivalent = tokenOut then true
      else
        match findVal intentToNativeMap tokenIn with
        | some nativeEquivalent => strToLower nativeEquivalent = tokenOut
        | none => false
  | none =>
      match findVal intentToNativeMap tokenIn with
      | some nativeEquivalent => strToLower nativeEquivalent = tokenOut
      | none => false

/-- `intentsToPriceId`: canonical price-lookup id for a raw token id, `null`
when no rule matches. -/
def intentsToPriceId (intentsTokenId : String) : Option String :=
  if intentsTokenId = "" then none
  else
    let cleaned := strToLower (strTrim intentsTokenId)
    let cleaned :=
      if ("intents:".data).isPrefixOf cleaned.data then strDropChars cleaned 8 else cleaned
    match findVal baseMap cleaned with
    | some directMatch => some directMatch
    | none =>
        if listHasInfix (".meme-cooking.near".data) cleaned.data then
          let symbol : String := ⟨cleaned.data.takeWhile (fun c => c != '-')⟩
          if symbol = "" then none else findVal baseMap symbol
        else none

/-! ## Aggregation engine data model (`swapMetrics.ts`) -/

/-- One event row returned by the event source (`SwapEventRow`); the
`timestamp` is already the `new Date(ev.timestamp).getTime()` millisecond
instant, the other fields keep their possibly-null row values. -/
structure SwapEventRow where
  timestamp : ℤ
  account_id : Option String
  token_in_id : Option String
  token_out_id : Option String
  amount_in : Option String
  amount_out : Option String
deriving DecidableEq

/-- `{ swaps, volumeUSD }` — one time-based accumulator. -/
structure TB where
  swaps : ℕ
  volumeUSD : ℚ
deriving DecidableEq

def TB.init : TB := ⟨0, 0⟩

/-- Fold one priced event into an accumulator: `swaps++` and
`volumeUSD = volumeUSD.plus(vc)`. -/
def TB.add (tb : TB) (vc : ℚ) : TB := ⟨tb.swaps + 1, tb.volumeUSD + vc⟩

/-- The seven global accumulators of the `metrics` object. -/
structure GlobalMetrics where
  allTime : TB
  last24h : TB
  previous24h : TB
  last7d : TB
  previous7d : TB
  last30d : TB
  previous30d : TB
deriving DecidableEq

def GlobalMetrics.init : GlobalMetrics :=
  ⟨TB.init, TB.init, TB.init, TB.init, TB.init, TB.init, TB.init⟩

/-- The four `feeSwaps` totals (deposit/withdraw pairs excluded). -/
structure FeeTotals where
  allTime : TB
  last24h : TB
  last7d : TB
  last30d : TB
deriving DecidableEq

def FeeTotals.init : FeeTotals := ⟨TB.init, TB.init, TB.init, TB.init⟩

/-- Per-pair accumulators (`PairMetrics`). -/
structure PairMetrics where
  swaps : ℕ
  volumeUSD : ℚ
  last24h : TB
  last7d : TB
  last30d : TB
deriving DecidableEq

def PairMetrics.init : PairMetrics := ⟨0, 0, TB.init, TB.init, TB.init⟩

/-- Per-account accumulators (`AccountMetrics`). -/
structure AccountMetrics where
  swaps : ℕ
  volumeUSD : ℚ
  feeSwaps : ℕ
  feeVolumeUSD : ℚ
  last24h : TB
  last7d : TB
  last30d : TB
deriving DecidableEq

def AccountMetrics.init : AccountMetrics := ⟨0, 0, 0, 0, TB.init, TB.init, TB.init⟩

/-- The run-wide diagnostics block. -/
structure Diagnostics where
  unmappedIntentTokenIds : List String
  priceIdMissing : List String
  badAmounts : ℕ
deriving DecidableEq

def Diagnostics.init : Diagnostics := ⟨[], [], 0⟩

/-- The whole mutable state of one aggregation run. -/
structure AggState where
  diags : Diagnostics
  metrics : GlobalMetrics
  feeSwaps : FeeTotals
  tradingPairs : List (String × PairMetrics)
  feeSwapPairs : List (String × PairMetrics)
  accounts : List (String × AccountMetrics)
deriving DecidableEq

def initState : AggState :=
  ⟨Diagnostics.init, GlobalMetrics.init, FeeTotals.init, [], [], []⟩

/-! ### Time-window boundaries (`timeFrames`, milliseconds before `now`) -/

def hourMs : ℤ := 3600000

def tf24h (now : ℤ) : ℤ := now - 24 * hourMs
def tf48h (now : ℤ) : ℤ := now - 48 * hourMs
def tf7d (now : ℤ) : ℤ := now - 7 * 24 * hourMs
def tf14d (now : ℤ) : ℤ := now - 14 * 24 * hourMs
def tf30d (now : ℤ) : ℤ := now - 30 * 24 * hourMs
def tf60d (now : ℤ) : ℤ := now - 60 * 24 * hourMs

/-- `new Date('2026-02-05T00:00:00Z').getTime()` — the TON decimal-fix cutover. -/
def tonFixDate : ℤ := 1770249600000

/-! ### Per-event fold -/

/-- The `volumeContribution` computed for a parsed event: zero when the token
id is unmapped or its price id has no price, otherwise `amount × price`,
divided by 1000 for pre-cutover TON events. -/
def volumeContribution (prices : String → Option ℚ) (tokenId : String) (eventTime : ℤ)
    (amount : ℚ) : ℚ :=
  match intentsToPriceId tokenId with
  | none => 0
  | some priceId =>
      match prices priceId with
      | none => 0
      | some price =>
          let vc := amount * price
          if priceId = "the-open-network" ∧ eventTime < tonFixDate then vc / 1000 else vc

/-- The diagnostics updates of the pricing stage: an unmapped token id goes to
`unmappedIntentTokenIds` (as `'(empty)'` when empty), a resolved price id with
no price goes to `priceIdMissing`. -/
def diagsAfter (prices : String → Option ℚ) (tokenId : String) (d : Diagnostics) : Diagnostics :=
  match intentsToPriceId tokenId with
  | none =>
      { d with unmappedIntentTokenIds :=
          addToSet d.unmappedIntentTokenIds (if tokenId = "" then "(empty)" else tokenId) }
  | some priceId =>
      match prices priceId with
      | none => { d with priceIdMissing := addToSet d.priceIdMissing priceId }
      | some _ => d

/-- The chain of global-metrics updates for one event.  Each `if` in the source
touches a distinct field, so the sequential updates are written field-wise. -/
def foldGlobal (now eventTime : ℤ) (vc : ℚ) (g : GlobalMetrics) : GlobalMetrics where
  allTime := g.allTime.add vc
  last24h := if eventTime ≥ tf24h now then g.last24h.add vc else g.last24h
  previous24h :=
    if tf48h now ≤ eventTime ∧ eventTime < tf24h now then g.previous24h.add vc else g.previous24h
  last7d := if eventTime ≥ tf7d now then g.last7d.add vc else g.last7d
  previous7d :=
    if tf14d now ≤ eventTime ∧ eventTime < tf7d now then g.previous7d.add vc else g.previous7d
  last30d := if eventTime ≥ tf30d now then g.last30d.add vc else g.last30d
  previous30d :=
    if tf60d now ≤ eventTime ∧ eventTime < tf30d now then g.previous30d.add vc else g.previous30d

/-- The per-pair update for one event (`pairMetrics.swaps++; …` plus the three
window-guarded nested updates). -/
def PairMetrics.fold (in24 in7 in30 : Prop) [Decidable in24] [Decidable in7] [Decidable in30]
    (vc : ℚ) (pm : PairMetrics) : PairMetrics where
  swaps := pm.swaps + 1
  volumeUSD := pm.volumeUSD + vc
  last24h := if in24 then pm.last24h.add vc else pm.last24h
  last7d := if in7 then pm.last7d.add vc else pm.last7d
  last30d := if in30 then pm.last30d.add vc else pm.last30d

/-- The `feeSwaps` totals update for one fee-eligible event. -/
def FeeTotals.fold (in24 in7 in30 : Prop) [Decidable in24] [Decidable in7] [Decidable in30]
    (vc : ℚ) (ft : FeeTotals) : FeeTotals where
  allTime := ft.allTime.add vc
  last24h := if in24 then ft.last24h.add vc else ft.last24h
  last7d := if in7 then ft.last7d.add vc else ft.last7d
  last30d := if in30 then ft.last30d.add vc else ft.last30d

/-- The per-account update for one event; the fee sub-totals move only when
`feeEligible` (both token ids present and not a deposit/withdraw pair). -/
def AccountMetrics.fold (in24 in7 in30 feeEligible : Prop)
    [Decidable in24] [Decidable in7] [Decidable in30] [Decidable feeEligible]
    (vc : ℚ) (am : AccountMetrics) : AccountMetrics where
  swaps := am.swaps + 1
  volumeUSD := am.volumeUSD + vc
  feeSwaps := if feeEligible then am.feeSwaps + 1 else am.feeSwaps
  feeVolumeUSD := if feeEligible then am.feeVolumeUSD + vc else am.feeVolumeUSD
  last24h := if in24 then am.last24h.add vc else am.last24h
  last7d := if in7 then am.last7d.add vc else am.last7d
  last30d := if in30 then am.last30d.add vc else am.last30d

/-- All accumulator updates of one non-skipped event (everything after the
amount parse and pricing stages). -/
def foldEvent (now eventTime : ℤ) (vc : ℚ) (tokenInId tokenOutId accountId : String)
    (st : AggState) : AggState :=
  let pairKey := tokenInId ++ " → " ++ tokenOutId
  let isDW := isDepositWithdrawPair tokenInId tokenOutId
  let doPair := tokenInId ≠ "" ∧ tokenOutId ≠ ""
  let in24 := eventTime ≥ tf24h now
  let in7 := eventTime ≥ tf7d now
  let in30 := eventTime ≥ tf30d now
  { diags := st.diags
    metrics := foldGlobal now eventTime vc st.metrics
    tradingPairs :=
      if doPair then
        updateEntry st.tradingPairs pairKey PairMetrics.init (PairMetrics.fold in24 in7 in30 vc)
      else st.tradingPairs
    feeSwaps :=
      if doPair ∧ isDW = false then FeeTotals.fold in24 in7 in30 vc st.feeSwaps else st.feeSwaps
    feeSwapPairs :=
      if doPair ∧ isDW = false then
        updateEntry st.feeSwapPairs pairKey PairMetrics.init (PairMetrics.fold in24 in7 in30 vc)
      else st.feeSwapPairs
    accounts :=
      if accountId ≠ "" then
        updateEntry st.accounts accountId AccountMetrics.init
          (AccountMetrics.fold in24 in7 in30 (doPair ∧ isDW = false) vc)
      else st.accounts }

/-- The valued-leg amount string of an event (`useIn` selects the leg,
`?? '0'` supplies the default). -/
def valuedAmountStr (useIn : Bool) (ev : SwapEventRow) : String :=
  (if useIn then ev.amount_in else ev.amount_out).getD "0"

/-- The valued-leg token id of an event (`?? ''` supplies the default). -/
def valuedTokenId (useIn : Bool) (ev : SwapEventRow) : String :=
  (if useIn then ev.token_in_id else ev.token_out_id).getD ""

/-- The loop body of `getSwapMetrics` for one event: parse the amount (a throw
increments `badAmounts` and continues), price the valued leg, then fold the
event into every accumulator. -/
def processEvent (useIn : Bool) (now : ℤ) (prices : String → Option ℚ)
    (st : AggState) (ev : SwapEventRow) : AggState :=
  match parseDecimal (valuedAmountStr useIn ev) with
  | none => { st with diags := { st.diags with badAmounts := st.diags.badAmounts + 1 } }
  | some amount =>
      let tokenId := valuedTokenId useIn ev
      let vc := volumeContribution prices tokenId ev.timestamp amount
      foldEvent now ev.timestamp vc (ev.token_in_id.getD "") (ev.token_out_id.getD "")
        (ev.account_id.getD "") { st with diags := diagsAfter prices tokenId st.diags }

/-- The whole event loop: fold every event, in arrival order, into the fresh
state (page boundaries do not change the per-event processing). -/
def runFold (useIn : Bool) (now : ℤ) (prices : String → Option ℚ)
    (events : List SwapEventRow) : AggState :=
  events.foldl (processEvent useIn now prices) initState

/-! ## Finalization (`calculateGrowth`, ranked lists, report fields) -/

/-- `calculateGrowth(current, previous)`: `null` stands for `none`. -/
def calculateGrowth (current previous : ℚ) : Option ℚ :=
  if previous = 0 then (if current > 0 then none else some 0)
  else some ((current - previous) / previous * 100)

/-- `Number(x.toFixed(2))`: round to an integer number of hundredths. -/
def roundTo2 (q : ℚ) : ℚ := (round (q * 100) : ℤ) / 100

/-- Stable descending insertion by `key` (the element goes before every
element of equal or smaller key that stood earlier only if strictly larger —
ties keep their original relative order, like the stable JS `sort`). -/
def insertDesc {α : Type} (key : α → ℚ) (x : α) : List α → List α
  | [] => [x]
  | y :: ys => if key y ≤ key x then x :: y :: ys else y :: insertDesc key x ys

/-- Stable descending sort by `key` (`.sort((a, b) => key(b) - key(a))`). -/
def sortDesc {α : Type} (key : α → ℚ) (l : List α) : List α :=
  l.foldr (insertDesc key) []

/-- One row of the `topTradingPairs.allTime` / `last24h` output lists. -/
structure PairOut where
  pair : String
  totalSwaps : ℕ
  totalVolumeUSD : ℚ
  last24hSwaps : ℕ
  last24hVolumeUSD : ℚ
deriving DecidableEq

/-- One row of the 7d/30d pair output lists (`periodSwaps`/`periodVolumeUSD`). -/
structure PairPeriodOut where
  pair : String
  totalSwaps : ℕ
  totalVolumeUSD : ℚ
  periodSwaps : ℕ
  periodVolumeUSD : ℚ
deriving DecidableEq

/-- One row of the `topSwappers` output lists (`mapAccountToOutput`). -/
structure AccountOut where
  accountId : String
  totalSwaps : ℕ
  totalVolumeUSD : ℚ
  feeSwaps : ℕ
  feeVolumeUSD : ℚ
  last24hSwaps : ℕ
  last24hVolumeUSD : ℚ
  last7dSwaps : ℕ
  last7dVolumeUSD : ℚ
  last30dSwaps : ℕ
  last30dVolumeUSD : ℚ
deriving DecidableEq

def pairToOut (e : String × PairMetrics) : PairOut :=
  ⟨e.1, e.2.swaps, e.2.volumeUSD, e.2.last24h.swaps, e.2.last24h.volumeUSD⟩

def pairToOut7d (e : String × PairMetrics) : PairPeriodOut :=
  ⟨e.1, e.2.swaps, e.2.volumeUSD, e.2.last7d.swaps, e.2.last7d.volumeUSD⟩

def pairToOut30d (e : String × PairMetrics) : PairPeriodOut :=
  ⟨e.1, e.2.swaps, e.2.volumeUSD, e.2.last30d.swaps, e.2.last30d.volumeUSD⟩

def mapAccountToOutput (e : String × AccountMetrics) : AccountOut :=
  ⟨e.1, e.2.swaps, e.2.volumeUSD, e.2.feeSwaps, e.2.feeVolumeUSD,
   e.2.last24h.swaps, e.2.last24h.volumeUSD, e.2.last7d.swaps, e.2.last7d.volumeUSD,
   e.2.last30d.swaps, e.2.last30d.volumeUSD⟩

def topPairsAllTime (st : AggState) : List PairOut :=
  (sortDesc (fun p => p.totalVolumeUSD) (st.tradingPairs.map pairToOut)).take 30

def topPairs24h (st : AggState) : List PairOut :=
  (sortDesc (fun p => p.last24hVolumeUSD)
    ((st.tradingPairs.map pairToOut).filter (fun p => decide (p.last24hSwaps > 0)))).take 30

def topPairs7d (st : AggState) : List PairPeriodOut :=
  (sortDesc (fun p => p.periodVolumeUSD)
    ((st.tradingPairs.map pairToOut7d).filter (fun p => decide (p.periodSwaps > 0)))).take 30

def topPairs30d (st : AggState) : List PairPeriodOut :=
  (sortDesc (fun p => p.periodVolumeUSD)
    ((st.tradingPairs.map pairToOut30d).filter (fun p => decide (p.periodSwaps > 0)))).take 30

def topFeeSwapPairsAllTime (st : AggState) : List PairOut :=
  (sortDesc (fun p => p.totalVolumeUSD) (st.feeSwapPairs.map pairToOut)).take 30

def topFeeSwapPairs24h (st : AggState) : List PairOut :=
  (sortDesc (fun p => p.last24hVolumeUSD)
    ((st.feeSwapPairs.map pairToOut).filter (fun p => decide (p.last24hSwaps > 0)))).take 30

def topFeeSwapPairs7d (st : AggState) : List PairPeriodOut :=
  (sortDesc (fun p => p.periodVolumeUSD)
    ((st.feeSwapPairs.map pairToOut7d).filter (fun p => decide (p.periodSwaps > 0)))).take 30

def topFeeSwapPairs30d (st : AggState) : List PairPeriodOut :=
  (sortDesc (fun p => p.periodVolumeUSD)
    ((st.feeSwapPairs.map pairToOut30d).filter (fun p => decide (p.periodSwaps > 0)))).take 30

def topSwappersByVolume (st : AggState) : List AccountOut :=
  (sortDesc (fun a => a.totalVolumeUSD) (st.accounts.map mapAccountToOutput)).take 30

def topSwappersByCount (st : AggState) : List AccountOut :=
  (sortDesc (fun a => (a.totalSwaps : ℚ)) (st.accounts.map mapAccountToOutput)).take 30

def topSwappersByFeeVolume (st : AggState) : List AccountOut :=
  (sortDesc (fun a => a.feeVolumeUSD)
    ((st.accounts.map mapAccountToOutput).filter (fun a => decide (a.feeSwaps > 0)))).take 30

def topSwappers24h (st : AggState) : List AccountOut :=
  (sortDesc (fun a => a.last24hVolumeUSD)
    ((st.accounts.map mapAccountToOutput).filter (fun a => decide (a.last24hSwaps > 0)))).take 30

def topSwappers7d (st : AggState) : List AccountOut :=
  (sortDesc (fun a => a.last7dVolumeUSD)
    ((st.accounts.map mapAccountToOutput).filter (fun a => decide (a.last7dSwaps > 0)))).take 30

def topSwappers30d (st : AggState) : List AccountOut :=
  (sortDesc (fun a => a.last30dVolumeUSD)
    ((st.accounts.map mapAccountToOutput).filter (fun a => decide (a.last30dSwaps > 0)))).take 30

/-! ### Growth fields of the output object.  `Decimal.toNumber()` is modelled
as the exact rational value; the growth percentages go through `toFixed(2)`. -/

def swapGrowth24h (st : AggState) : Option ℚ :=
  calculateGrowth (st.metrics.last24h.swaps : ℚ) (st.metrics.previous24h.swaps : ℚ)

def volumeGrowth24h (st : AggState) : Option ℚ :=
  calculateGrowth st.metrics.last24h.volumeUSD st.metrics.previous24h.volumeUSD

def swapGrowth7d (st : AggState) : Option ℚ :=
  calculateGrowth (st.metrics.last7d.swaps : ℚ) (st.metrics.previous7d.swaps : ℚ)

def volumeGrowth7d (st : AggState) : Option ℚ :=
  calculateGrowth st.metrics.last7d.volumeUSD st.metrics.previous7d.volumeUSD

def swapGrowth30d (st : AggState) : Option ℚ :=
  calculateGrowth (st.metrics.last30d.swaps : ℚ) (st.metrics.previous30d.swaps : ℚ)

def volumeGrowth30d (st : AggState) : Option ℚ :=
  calculateGrowth st.metrics.last30d.volumeUSD st.metrics.previous30d.volumeUSD

/-- `swapGrowthPercent` of the `last24h` output block
(`g !== null ? Number(g.toFixed(2)) : null`). -/
def outSwapGrowth24h (st : AggState) : Option ℚ := (swapGrowth24h st).map roundTo2

def outVolumeGrowth24h (st : AggState) : Option ℚ := (volumeGrowth24h st).map roundTo2

def outSwapGrowth7d (st : AggState) : Option ℚ := (swapGrowth7d st).map roundTo2

def outVolumeGrowth7d (st : AggState) : Option ℚ := (volumeGrowth7d st).map roundTo2

def outSwapGrowth30d (st : AggState) : Option ℚ := (swapGrowth30d st).map roundTo2

def outVolumeGrowth30d (st : AggState) : Option ℚ := (volumeGrowth30d st).map roundTo2

/-- `allTime.totalVolumeUSD` of the returned object:
`metrics.allTime.volumeUSD.toNumber()` — the exact value, no 2-decimal
rounding is applied to the monetary volume fields. -/
def outAllTimeVolumeUSD (st : AggState) : ℚ := st.metrics.allTime.volumeUSD

/-! ## Price Resolver (`prices.ts`)

The two HTTP fetches are modelled by their outcomes: the primary fetch is an
`Except` (an `axios` throw rejects `fetchPricesOnce` itself), and each
CoinGecko attempt of the retry loop is one entry of an outcome list. -/

/-- An HTTP failure as classified by the retry logic. -/
structure FetchErr where
  status : Option ℕ
  code : Option String
deriving DecidableEq

namespace Prices

/-- A row of the primary price feed response. -/
structure PriceRow where
  id : String
  usdPrice : Option String
deriving DecidableEq

/-- `coinGeckoFallbackMap`: internal price id → CoinGecko id. -/
def coinGeckoFallbackMap : List (String × String) := [
  ("kaito", "kaito"),
  ("arbitrum", "arbitrum"),
  ("matic-network", "polygon-ecosystem-token"),
  ("kat", "nearkat"),
  ("npro", "npro"),
  ("public-ai", "publicai"),
  ("rhea", "rhea-2"),
  ("itlx", "intellex")
]

/-- Retryable error classification of the CoinGecko loop
(`429 || status >= 500 || ECONNABORTED`). -/
def isRetryable (e : FetchErr) : Bool :=
  decide (e.status = some 429) ||
    (match e.status with | some s => decide (s ≥ 500) | none => false) ||
    decide (e.code = some "ECONNABORTED")

/-- Build the result table from a successful CoinGecko response: an id is kept
only when its `usd` field is present and truthy (`if (price)`). -/
def extractCgPrices (rows : List (String × ℚ)) : List (String × ℚ) :=
  rows.foldl (fun acc r => if r.2 ≠ 0 then upsert acc r.1 r.2 else acc) []

/-- The retry loop of `fetchFromCoinGecko` (retries = 3, so at most 2 retries
are left after the first attempt): a success returns its parsed table, a
non-retryable error or an exhausted budget returns the empty table. -/
def cgAttempts : ℕ → List (Except FetchErr (List (String × ℚ))) → List (String × ℚ)
  | _, [] => []
  | _, Except.ok rows :: _ => extractCgPrices rows
  | 0, Except.error _ :: _ => []
  | budget + 1, Except.error e :: rest =>
      if isRetryable e then cgAttempts budget rest else []

/-- `fetchFromCoinGecko(ids)` under the attempt outcomes `outcomes`; every
failure path swallows the error and yields the empty table. -/
def fetchFromCoinGecko (ids : List String)
    (outcomes : List (Except FetchErr (List (String × ℚ)))) : List (String × ℚ) :=
  if ids.isEmpty then [] else cgAttempts 2 outcomes

/-- Build the primary price table: rows with a missing id or null price are
skipped, rows whose price string fails to parse are ignored. -/
def buildPrimaryMap (rows : List PriceRow) : List (String × ℚ) :=
  rows.foldl
    (fun m r =>
      if r.id = "" then m
      else
        match r.usdPrice with
        | none => m
        | some s =>
            match parseDecimal s with
            | none => m
            | some q => upsert m r.id q)
    []

/-- `fetchPricesOnce()`: a primary-feed failure propagates; otherwise the
primary table is built, the fallback ids still missing are fetched from
CoinGecko (whose failures are swallowed), and the found fallback prices are
merged for the ids that are still absent. -/
def fetchPricesOnce (primary : Except FetchErr (List PriceRow))
    (cgOutcomes : List (Except FetchErr (List (String × ℚ)))) :
    Except FetchErr (List (String × ℚ)) :=
  match primary with
  | Except.error e => Except.error e
  | Except.ok rows =>
      let map := buildPrimaryMap rows
      let toFetch := coinGeckoFallbackMap.filter (fun p => (findVal map p.1).isNone)
      let cg :=
        if toFetch.length > 0 then fetchFromCoinGecko (toFetch.map (fun p => p.2)) cgOutcomes
        else []
      Except.ok (coinGeckoFallbackMap.foldl
        (fun m p =>
          match findVal m p.1, findVal cg p.2 with
          | none, some price => upsert m p.1 price
          | _, _ => m)
        map)

end Prices

/-! ## Derived notions used by the theorems -/

/-- The three growth window sizes. -/
inductive Window | w24 | w7 | w30
deriving DecidableEq

/-- The current-window global accumulator of a window size. -/
def curTB : Window → GlobalMetrics → TB
  | Window.w24, g => g.last24h
  | Window.w7, g => g.last7d
  | Window.w30, g => g.last30d

/-- The previous-window global accumulator of a window size. -/
def prevTB : Window → GlobalMetrics → TB
  | Window.w24, g => g.previous24h
  | Window.w7, g => g.previous7d
  | Window.w30, g => g.previous30d

/-- The current-window boundary instant of a window size. -/
def curCutoff (now : ℤ) : Window → ℤ
  | Window.w24 => tf24h now
  | Window.w7 => tf7d now
  | Window.w30 => tf30d now

/-- The previous-window lower bound of a window size. -/
def prevCutoff (now : ℤ) : Window → ℤ
  | Window.w24 => tf48h now
  | Window.w7 => tf14d now
  | Window.w30 => tf60d now

/-- The four volume figures of a pair map entry (all-time and the three
windows), with the lazily-created default for an absent key. -/
def pairVolsAt (m : List (String × PairMetrics)) (k : String) : ℚ × ℚ × ℚ × ℚ :=
  let pm := (findVal m k).getD PairMetrics.init
  (pm.volumeUSD, pm.last24h.volumeUSD, pm.last7d.volumeUSD, pm.last30d.volumeUSD)

/-- The swap count of a pair map entry. -/
def pairSwapsAt (m : List (String × PairMetrics)) (k : String) : ℕ :=
  ((findVal m k).getD PairMetrics.init).swaps

/-- The five volume figures of an account map entry. -/
def acctVolsAt (m : List (String × AccountMetrics)) (k : String) : ℚ × ℚ × ℚ × ℚ × ℚ :=
  let am := (findVal m k).getD AccountMetrics.init
  (am.volumeUSD, am.feeVolumeUSD, am.last24h.volumeUSD, am.last7d.volumeUSD, am.last30d.volumeUSD)

/-- The fee-eligible sub-totals of an account map entry. -/
def acctFeeAt (m : List (String × AccountMetrics)) (k : String) : ℕ × ℚ :=
  let am := (findVal m k).getD AccountMetrics.init
  (am.feeSwaps, am.feeVolumeUSD)

/-- All `volumeUSD` figures of the whole state agree between `st` and `st'`. -/
def volumesUnchanged (st st' : AggState) : Prop :=
  st'.metrics.allTime.volumeUSD = st.metrics.allTime.volumeUSD ∧
  st'.metrics.last24h.volumeUSD = st.metrics.last24h.volumeUSD ∧
  st'.metrics.previous24h.volumeUSD = st.metrics.previous24h.volumeUSD ∧
  st'.metrics.last7d.volumeUSD = st.metrics.last7d.volumeUSD ∧
  st'.metrics.previous7d.volumeUSD = st.metrics.previous7d.volumeUSD ∧
  st'.metrics.last30d.volumeUSD = st.metrics.last30d.volumeUSD ∧
  st'.metrics.previous30d.volumeUSD = st.metrics.previous30d.volumeUSD ∧
  st'.feeSwaps.allTime.volumeUSD = st.feeSwaps.allTime.volumeUSD ∧
  st'.feeSwaps.last24h.volumeUSD = st.feeSwaps.last24h.volumeUSD ∧
  st'.feeSwaps.last7d.volumeUSD = st.feeSwaps.last7d.volumeUSD ∧
  st'.feeSwaps.last30d.volumeUSD = st.feeSwaps.last30d.volumeUSD ∧
  (∀ k, pairVolsAt st'.tradingPairs k = pairVolsAt st.tradingPairs k) ∧
  (∀ k, pairVolsAt st'.feeSwapPairs k = pairVolsAt st.feeSwapPairs k) ∧
  (∀ k, acctVolsAt st'.accounts k = acctVolsAt st.accounts k)

/-- An event clears the parse, token-mapping and price-lookup stages. -/
def clearsAllStages (useIn : Bool) (prices : String → Option ℚ) (ev : SwapEventRow) : Prop :=
  (parseDecimal (valuedAmountStr useIn ev)).isSome = true ∧
  ∃ pid, intentsToPriceId (valuedTokenId useIn ev) = some pid ∧ (prices pid).isSome = true

/-- The all-time volume a single event adds during the fold (zero when its
amount fails to parse or it misses a mapping/price). -/
def contribution (useIn : Bool) (prices : String → Option ℚ) (ev : SwapEventRow) : ℚ :=
  match parseDecimal (valuedAmountStr useIn ev) with
  | none => 0
  | some a => volumeContribution prices (valuedTokenId useIn ev) ev.timestamp a

/-- `q` is an exact multiple of one hundredth (a finite 2-decimal value). -/
def isTwoDecimal (q : ℚ) : Prop := (q * 100).den = 1

/-! ## Helper lemmas -/

theorem findVal_mem {α : Type} {l : List (String × α)} {q : String} {v : α}
    (h : findVal l q = some v) : (q, v) ∈ l := by
  induction l with
  | nil => simp [findVal] at h
  | cons hd tl ih =>
      rw [findVal] at h
      split at h
      · rename_i heq
        cases h
        subst heq
        exact List.mem_cons_self _ _
      · exact List.mem_cons_of_mem _ (ih h)

theorem findVal_upsert {α : Type} (m : List (String × α)) (k : String) (v : α) (q : String) :
    findVal (upsert m k v) q = if q = k then some v else findVal m q := by
  induction m with
  | nil =>
      by_cases h : q = k
      · simp [upsert, findVal, h]
      · simp [upsert, findVal, h, Ne.symm h]
  | cons hd tl ih =>
      rw [upsert]
      by_cases hk : hd.1 = k
      · subst hk
        by_cases hq : q = hd.1
        · simp [findVal, hq]
        · simp [findVal, hq, Ne.symm hq]
      · by_cases hq : q = k
        · subst hq
          simp [hk, findVal, Ne.symm hk, ih]
        · by_cases hq' : hd.1 = q <;> simp [hk, findVal, hq', ih, hq]

theorem findVal_updateEntry {α : Type} (m : List (String × α)) (k : String) (init : α)
    (f : α → α) (q : String) :
    findVal (updateEntry m k init f) q =
      if q = k then some (f ((findVal m k).getD init)) else findVal m q := by
  induction m with
  | nil =>
      by_cases h : q = k
      · simp [updateEntry, findVal, h]
      · simp [updateEntry, findVal, h, Ne.symm h]
  | cons hd tl ih =>
      rw [updateEntry]
      by_cases hk : hd.1 = k
      · subst hk
        by_cases hq : q = hd.1
        · simp [findVal, hq]
        · simp [findVal, hq, Ne.symm hq]
      · by_cases hq : q = k
        · subst hq
          simp [hk, findVal, Ne.symm hk, ih]
        · by_cases hq' : hd.1 = q <;> simp [hk, findVal, hq', ih, hq]

theorem mem_insertDesc {α : Type} (key : α → ℚ) (a x : α) (l : List α) :
    x ∈ insertDesc key a l ↔ x = a ∨ x ∈ l := by
  induction l with
  | nil => simp [insertDesc]
  | cons hd tl ih =>
      rw [insertDesc]
      split
      · simp
      · simp only [List.mem_cons, ih]
        tauto

theorem mem_sortDesc {α : Type} (key : α → ℚ) (x : α) (l : List α) :
    x ∈ sortDesc key l ↔ x ∈ l := by
  induction l with
  | nil => simp [sortDesc]
  | cons hd tl ih =>
      simp only [sortDesc, List.foldr] at ih ⊢
      rw [mem_insertDesc, ih, List.mem_cons]

/-- Every row of a filtered, ranked, truncated output list satisfies the
filter predicate. -/
theorem of_mem_ranked {α : Type} (key : α → ℚ) (p : α → Bool) (l : List α) (n : ℕ) (x : α)
    (h : x ∈ (sortDesc key (l.filter p)).take n) : p x = true := by
  have hx : x ∈ sortDesc key (l.filter p) := List.take_subset n _ h
  rw [mem_sortDesc] at hx
  exact List.of_mem_filter hx

theorem processEvent_metrics (useIn : Bool) (now : ℤ) (prices : String → Option ℚ)
    (st : AggState) (ev : SwapEventRow) :
    (processEvent useIn now prices st ev).metrics =
      match parseDecimal (valuedAmountStr useIn ev) with
      | none => st.metrics
      | some a =>
          foldGlobal now ev.timestamp
            (volumeContribution prices (valuedTokenId useIn ev) ev.timestamp a) st.metrics := by
  cases h : parseDecimal (valuedAmountStr useIn ev) <;> simp [processEvent, foldEvent, h]

theorem curTB_foldGlobal (w : Window) (now t : ℤ) (vc : ℚ) (g : GlobalMetrics) :
    curTB w (foldGlobal now t vc g) =
      if curCutoff now w ≤ t then (curTB w g).add vc else curTB w g := by
  cases w <;> rfl

theorem prevTB_foldGlobal (w : Window) (now t : ℤ) (vc : ℚ) (g : GlobalMetrics) :
    prevTB w (foldGlobal now t vc g) =
      if prevCutoff now w ≤ t ∧ t < curCutoff now w then (prevTB w g).add vc
      else prevTB w g := by
  cases w <;> rfl

theorem processEvent_allTime_volume (useIn : Bool) (now : ℤ) (prices : String → Option ℚ)
    (st : AggState) (ev : SwapEventRow) :
    (processEvent useIn now prices st ev).metrics.allTime.volumeUSD =
      st.metrics.allTime.volumeUSD + contribution useIn prices ev := by
  cases h : parseDecimal (valuedAmountStr useIn ev) <;>
    simp [processEvent, foldEvent, foldGlobal, TB.add, contribution, h]

theorem foldl_allTime_volume (useIn : Bool) (now : ℤ) (prices : String → Option ℚ)
    (l : List SwapEventRow) (st : AggState) :
    (l.foldl (processEvent useIn now prices) st).metrics.allTime.volumeUSD =
      st.metrics.allTime.volumeUSD + (l.map (contribution useIn prices)).sum := by
  induction l generalizing st with
  | nil => simp
  | cons hd tl ih =>
      rw [List.foldl_cons, ih, processEvent_allTime_volume]
      simp [add_assoc]

theorem volumeContribution_nonneg (prices : String → Option ℚ) (tokenId : String) (t : ℤ)
    (a : ℚ) (ha : 0 ≤ a) (hp : ∀ id q, prices id = some q → 0 ≤ q) :
    0 ≤ volumeContribution prices tokenId t a := by
  rcases hmap : intentsToPriceId tokenId with _ | pid
  · simp [volumeContribution, hmap]
  · rcases hpr : prices pid with _ | price
    · simp [volumeContribution, hmap, hpr]
    · have hmul : 0 ≤ a * price := mul_nonneg ha (hp pid price hpr)
      simp only [volumeContribution, hmap, hpr]
      split
      · exact div_nonneg hmul (by norm_num)
      · exact hmul

/-! ## Claim theorems -/

/-- C2, counterexample: on a run whose previous-24h volume is zero (here: no
events at all), the emitted `volumeGrowthPercent` is `0`, not `null` — the
claim that growth is null whenever the previous-period value is zero (also
when current is zero) is false on the code. -/
theorem claim_C2_counterexample :
    (runFold true 0 (fun _ => none) []).metrics.previous24h.volumeUSD = 0 ∧
    outVolumeGrowth24h (runFold true 0 (fun _ => none) []) = some 0 := by
  constructor
  · rfl
  · with_unfolding_all decide

/-- C2, amended: growth equals `(current − previous) / previous × 100` when
the previous-period value is nonzero; when it is zero, growth is `null` only
if the current value is positive, and is `0` (not `null`) otherwise; the
result is always `null` or a rational number (never NaN/Infinity). -/
theorem claim_C2 (current previous : ℚ) :
    (previous ≠ 0 →
       calculateGrowth current previous = some ((current - previous) / previous * 100)) ∧
    (previous = 0 → 0 < current → calculateGrowth current previous = none) ∧
    (previous = 0 → current ≤ 0 → calculateGrowth current previous = some 0) := by
  refine ⟨?_, ?_, ?_⟩
  · intro h
    rw [calculateGrowth, if_neg h]
  · intro h hc
    rw [calculateGrowth, if_pos h, if_pos hc]
  · intro h hc
    rw [calculateGrowth, if_pos h, if_neg (not_lt.mpr hc)]

/-- C2, witness: the three branches of the amended claim at concrete inputs. -/
theorem claim_C2_witness :
    calculateGrowth 150 100 = some 50 ∧ calculateGrowth 5 0 = none ∧
      calculateGrowth 0 0 = some 0 := by
  refine ⟨?_, ?_, ?_⟩
  · rw [(claim_C2 150 100).1 (by norm_num)]
    norm_num
  · exact (claim_C2 5 0).2.1 rfl (by norm_num)
  · exact (claim_C2 0 0).2.2 rfl le_rfl

/-- C8: `fetchPricesOnce` never fails when the primary price feed succeeds —
whatever the CoinGecko attempt outcomes are, every fallback failure path
yields an empty merge instead of an error — while a primary-feed failure
propagates unchanged to the caller. -/
theorem claim_C8 (rows : List Prices.PriceRow) (e : FetchErr)
    (outcomesOk outcomesErr : List (Except FetchErr (List (String × ℚ)))) :
    (∃ table, Prices.fetchPricesOnce (Except.ok rows) outcomesOk = Except.ok table) ∧
    Prices.fetchPricesOnce (Except.error e) outcomesErr = Except.error e :=
  ⟨⟨_, rfl⟩, rfl⟩

theorem processEvent_metrics_none (useIn : Bool) (now : ℤ) (prices : String → Option ℚ)
    (st : AggState) (ev : SwapEventRow)
    (h : parseDecimal (valuedAmountStr useIn ev) = none) :
    (processEvent useIn now prices st ev).metrics = st.metrics := by
  simp [processEvent, h]

theorem processEvent_metrics_some (useIn : Bool) (now : ℤ) (prices : String → Option ℚ)
    (st : AggState) (ev : SwapEventRow) (a : ℚ)
    (h : parseDecimal (valuedAmountStr useIn ev) = some a) :
    (processEvent useIn now prices st ev).metrics =
      foldGlobal now ev.timestamp
        (volumeContribution prices (valuedTokenId useIn ev) ev.timestamp a) st.metrics := by
  simp [processEvent, foldEvent, h]

theorem prevCutoff_lt_curCutoff (now : ℤ) (w : Window) :
    prevCutoff now w < curCutoff now w := by
  cases w <;>
    simp [prevCutoff, curCutoff, tf24h, tf48h, tf7d, tf14d, tf30d, tf60d, hourMs]

/-- C4: for every event and window size, the event is folded into at most one
of the current/previous global accumulators; a timestamp at or after the
current boundary leaves the previous accumulator untouched (and, when the
amount parses, increments the current one), a timestamp in the previous range
leaves the current accumulator untouched (and increments the previous one),
and an older timestamp touches neither. -/
theorem claim_C4 (useIn : Bool) (now : ℤ) (prices : String → Option ℚ) (st : AggState)
    (ev : SwapEventRow) (w : Window) :
    ¬ (curTB w (processEvent useIn now prices st ev).metrics ≠ curTB w st.metrics ∧
       prevTB w (processEvent useIn now prices st ev).metrics ≠ prevTB w st.metrics) ∧
    (curCutoff now w ≤ ev.timestamp →
       prevTB w (processEvent useIn now prices st ev).metrics = prevTB w st.metrics) ∧
    (prevCutoff now w ≤ ev.timestamp ∧ ev.timestamp < curCutoff now w →
       curTB w (processEvent useIn now prices st ev).metrics = curTB w st.metrics) ∧
    (ev.timestamp < prevCutoff now w →
       curTB w (processEvent useIn now prices st ev).metrics = curTB w st.metrics ∧
       prevTB w (processEvent useIn now prices st ev).metrics = prevTB w st.metrics) ∧
    (∀ a, parseDecimal (valuedAmountStr useIn ev) = some a →
       (curCutoff now w ≤ ev.timestamp →
          (curTB w (processEvent useIn now prices st ev).metrics).swaps =
            (curTB w st.metrics).swaps + 1) ∧
       (prevCutoff now w ≤ ev.timestamp ∧ ev.timestamp < curCutoff now w →
          (prevTB w (processEvent useIn now prices st ev).metrics).swaps =
            (prevTB w st.metrics).swaps + 1)) := by
  cases hp : parseDecimal (valuedAmountStr useIn ev) with
  | none =>
      rw [processEvent_metrics_none useIn now prices st ev hp]
      refine ⟨by tauto, fun _ => rfl, fun _ => rfl, fun _ => ⟨rfl, rfl⟩, ?_⟩
      intro a ha
      cases ha
  | some a =>
      have hpc := prevCutoff_lt_curCutoff now w
      rw [processEvent_metrics_some useIn now prices st ev a hp, curTB_foldGlobal,
        prevTB_foldGlobal]
      refine ⟨?_, ?_, ?_, ?_, ?_⟩
      · split_ifs with h1 h2
        · omega
        · simp
        · simp
        · simp
      · intro h1
        rw [if_neg (by omega : ¬ (prevCutoff now w ≤ ev.timestamp ∧
          ev.timestamp < curCutoff now w))]
      · intro h2
        rw [if_neg (by omega : ¬ curCutoff now w ≤ ev.timestamp)]
      · intro h3
        constructor
        · rw [if_neg (by omega : ¬ curCutoff now w ≤ ev.timestamp)]
        · rw [if_neg (by omega : ¬ (prevCutoff now w ≤ ev.timestamp ∧
            ev.timestamp < curCutoff now w))]
      · intro a' ha'
        constructor
        · intro h1
          rw [if_pos h1]
          rfl
        · intro h2
          rw [if_pos h2]
          rfl

/-- C4, witness: an event exactly at `now` (inside the current 24h window)
increments the current-24h accumulator and leaves the previous-24h one
untouched. -/
theorem claim_C4_witness :
    (curTB Window.w24 (processEvent true 0 (fun _ => none) initState
        ⟨0, none, none, none, some "1", none⟩).metrics).swaps =
      (curTB Window.w24 initState.metrics).swaps + 1 ∧
    prevTB Window.w24 (processEvent true 0 (fun _ => none) initState
        ⟨0, none, none, none, some "1", none⟩).metrics =
      prevTB Window.w24 initState.metrics := by
  have h := claim_C4 true 0 (fun _ => none) initState ⟨0, none, none, none, some "1", none⟩
    Window.w24
  exact ⟨(h.2.2.2.2 1 (by with_unfolding_all decide)).1 (by decide), h.2.1 (by decide)⟩

/-- C5: the all-time total volume of a run is invariant under any permutation
of the event stream (stated, as in the spec, for events that clear every
recoverable-error stage). -/
theorem claim_C5 (useIn : Bool) (now : ℤ) (prices : String → Option ℚ)
    (l₁ l₂ : List SwapEventRow) (hperm : l₁.Perm l₂)
    (_hclear : ∀ ev ∈ l₁, clearsAllStages useIn prices ev) :
    (runFold useIn now prices l₁).metrics.allTime.volumeUSD =
      (runFold useIn now prices l₂).metrics.allTime.volumeUSD := by
  rw [runFold, runFold, foldl_allTime_volume, foldl_allTime_volume,
    (hperm.map (contribution useIn prices)).sum_eq]

/-- C5, witness: two fully-priced events in both orders give the same
all-time volume. -/
theorem claim_C5_witness :
    (runFold true 0
        (fun id => if id = "near" then some 2 else if id = "usd-coin" then some 1 else none)
        [⟨0, none, some "intents:near", none, some "1", none⟩,
         ⟨0, none, some "intents:usdc", none, some "3", none⟩]).metrics.allTime.volumeUSD =
      (runFold true 0
        (fun id => if id = "near" then some 2 else if id = "usd-coin" then some 1 else none)
        [⟨0, none, some "intents:usdc", none, some "3", none⟩,
         ⟨0, none, some "intents:near", none, some "1", none⟩]).metrics.allTime.volumeUSD := by
  apply claim_C5
  · exact List.Perm.swap _ _ _
  · intro ev hev
    simp only [List.mem_cons, List.not_mem_nil, or_false] at hev
    rcases hev with rfl | rfl
    · exact ⟨by with_unfolding_all decide, "near", by decide, by decide⟩
    · exact ⟨by with_unfolding_all decide, "usd-coin", by decide, by decide⟩

/-- C1, counterexample: an event whose valued amount parses to the negative
value `-5` is NOT counted in `badAmounts` and is folded into the
accumulators, strictly decreasing the all-time `volumeUSD` — refuting both
the claimed skip of non-positive amounts and the claimed monotonicity. -/
theorem claim_C1_counterexample :
    (processEvent true 0 (fun id => if id = "near" then some (5/2) else none) initState
        ⟨0, none, some "intents:near", none, some "-5", none⟩).diags.badAmounts = 0 ∧
    (processEvent true 0 (fun id => if id = "near" then some (5/2) else none) initState
        ⟨0, none, some "intents:near", none, some "-5", none⟩).metrics.allTime.volumeUSD <
      initState.metrics.allTime.volumeUSD := by
  constructor
  · with_unfolding_all decide
  · with_unfolding_all decide

/-- C1, amended: only an amount string that fails to parse increments
`badAmounts` and skips the event (leaving the whole state otherwise
untouched); a parsed amount — zero or negative included — is folded
normally, so the all-time `volumeUSD` is non-decreasing only under the
assumption that every parsed amount and every price is nonnegative. -/
theorem claim_C1 (useIn : Bool) (now : ℤ) (prices : String → Option ℚ) (st : AggState)
    (ev : SwapEventRow) :
    (parseDecimal (valuedAmountStr useIn ev) = none →
       processEvent useIn now prices st ev =
         { st with diags := { st.diags with badAmounts := st.diags.badAmounts + 1 } }) ∧
    ((∀ a, parseDecimal (valuedAmountStr useIn ev) = some a → 0 ≤ a) →
     (∀ id q, prices id = some q → 0 ≤ q) →
     st.metrics.allTime.volumeUSD ≤
       (processEvent useIn now prices st ev).metrics.allTime.volumeUSD) := by
  constructor
  · intro h
    simp [processEvent, h]
  · intro ha hp
    rw [processEvent_allTime_volume]
    have hc : 0 ≤ contribution useIn prices ev := by
      rcases hparse : parseDecimal (valuedAmountStr useIn ev) with _ | a
      · simp [contribution, hparse]
      · simp only [contribution, hparse]
        exact volumeContribution_nonneg prices _ _ a (ha a hparse) hp
    linarith

/-- C1, witness: a malformed amount bumps `badAmounts` and changes nothing
else; with nonnegative amounts and prices the all-time volume cannot drop. -/
theorem claim_C1_witness :
    (processEvent true 0 (fun _ => none) initState ⟨0, none, none, none, some "oops", none⟩ =
      { initState with diags :=
          { initState.diags with badAmounts := initState.diags.badAmounts + 1 } }) ∧
    initState.metrics.allTime.volumeUSD ≤
      (processEvent true 0 (fun id => if id = "near" then some (5/2) else none) initState
        ⟨0, none, some "intents:near", none, some "2", none⟩).metrics.allTime.volumeUSD := by
  constructor
  · exact (claim_C1 true 0 (fun _ => none) initState
      ⟨0, none, none, none, some "oops", none⟩).1 (by decide)
  · apply (claim_C1 true 0 (fun id => if id = "near" then some (5/2) else none) initState
      ⟨0, none, some "intents:near", none, some "2", none⟩).2
    · intro a ha
      rw [show parseDecimal (valuedAmountStr true
        (⟨0, none, some "intents:near", none, some "2", none⟩ : SwapEventRow)) = some 2 from
        by with_unfolding_all decide] at ha
      injection ha with h
      rw [← h]
      norm_num
    · intro id q h
      by_cases hid : id = "near"
      · subst hid
        simp only [if_pos rfl] at h
        injection h with h
        rw [← h]
        norm_num
      · simp [hid] at h

theorem roundTo2_twoDecimal (q : ℚ) : isTwoDecimal (roundTo2 q) := by
  rw [isTwoDecimal, roundTo2, div_mul_cancel₀ _ (by norm_num : (100 : ℚ) ≠ 0)]
  exact Rat.den_intCast _

/-- C7, counterexample: a run whose only event has amount `0.125` at unit
price 1 emits `allTime.totalVolumeUSD = 0.125`, which is not a 2-decimal
value — the volume fields are not rounded to 2 decimal places. -/
theorem claim_C7_counterexample :
    ¬ isTwoDecimal (outAllTimeVolumeUSD (runFold true 0
        (fun id => if id = "near" then some 1 else none)
        [⟨0, none, some "intents:near", none, some "0.125", none⟩])) := by
  unfold isTwoDecimal
  with_unfolding_all decide

/-- C7, amended: the six growth-percentage output fields are rounded to
2 decimal places, while the monetary volume fields are emitted as the exact
internally-accumulated decimal value with no 2-decimal rounding. -/
theorem claim_C7 (st : AggState) :
    (∀ g, outSwapGrowth24h st = some g → isTwoDecimal g) ∧
    (∀ g, outVolumeGrowth24h st = some g → isTwoDecimal g) ∧
    (∀ g, outSwapGrowth7d st = some g → isTwoDecimal g) ∧
    (∀ g, outVolumeGrowth7d st = some g → isTwoDecimal g) ∧
    (∀ g, outSwapGrowth30d st = some g → isTwoDecimal g) ∧
    (∀ g, outVolumeGrowth30d st = some g → isTwoDecimal g) ∧
    outAllTimeVolumeUSD st = st.metrics.allTime.volumeUSD := by
  refine ⟨?_, ?_, ?_, ?_, ?_, ?_, rfl⟩ <;>
    · intro g hg
      obtain ⟨q, _, rfl⟩ := Option.map_eq_some'.mp hg
      exact roundTo2_twoDecimal q

/-- C7, witness: the rounded zero growth of an empty run is a 2-decimal
value, and the emitted all-time volume of the empty run is the exact
accumulator value. -/
theorem claim_C7_witness :
    isTwoDecimal (0 : ℚ) ∧ outAllTimeVolumeUSD initState = initState.metrics.allTime.volumeUSD := by
  constructor
  · exact (claim_C7 initState).1 0 (by with_unfolding_all decide)
  · exact (claim_C7 initState).2.2.2.2.2.2

theorem mergeFold_preserves (cg : List (String × ℚ)) (fb : List (String × String))
    (m : List (String × ℚ)) (id : String) (q : ℚ) (h : findVal m id = some q) :
    findVal (fb.foldl
      (fun m p =>
        match findVal m p.1, findVal cg p.2 with
        | none, some price => upsert m p.1 price
        | _, _ => m) m) id = some q := by
  induction fb generalizing m with
  | nil => exact h
  | cons hd tl ih =>
      rw [List.foldl_cons]
      apply ih
      cases hfm : findVal m hd.1 with
      | some v =>
          simpa only [hfm] using h
      | none =>
          cases hcg : findVal cg hd.2 with
          | none => simpa only [hfm, hcg] using h
          | some price =>
              simp only [hfm, hcg, findVal_upsert]
              split_ifs with hid
              · subst hid
                rw [hfm] at h
                cases h
              · exact h

/-- C9: a price delivered by the primary feed is never overwritten by the
CoinGecko fallback merge — whatever the fallback outcomes, every id priced by
the primary source keeps exactly its primary price in the table returned by
`fetchPricesOnce`. -/
theorem claim_C9 (rows : List Prices.PriceRow)
    (outcomes : List (Except FetchErr (List (String × ℚ)))) (id : String) (q : ℚ)
    (table : List (String × ℚ))
    (hprim : findVal (Prices.buildPrimaryMap rows) id = some q)
    (hrun : Prices.fetchPricesOnce (Except.ok rows) outcomes = Except.ok table) :
    findVal table id = some q := by
  rw [Prices.fetchPricesOnce] at hrun
  injection hrun with htable
  rw [← htable]
  exact mergeFold_preserves _ _ _ _ _ hprim

/-- C9, witness: a primary `kaito` price of 1.5 survives a fallback fetch
that also returns a (different) `kaito` price. -/
theorem claim_C9_witness :
    findVal [("kaito", (3 : ℚ)/2)] "kaito" = some (3/2) := by
  apply claim_C9 [⟨"kaito", some "1.5"⟩] [Except.ok [("kaito", 2)]] "kaito" (3/2)
  · with_unfolding_all decide
  · with_unfolding_all rfl

/-- C10: every entry of the window-scoped ranked lists (per-pair 24h/7d/30d,
fee-pair 24h/7d/30d, swappers byFeeVolume/24h/7d/30d) has a strictly positive
swap count in that window or fee category, while the unfiltered `allTime`
lists can contain entries with zero swaps and volume in a window. -/
theorem claim_C10 :
    (∀ st e, e ∈ topPairs24h st → 0 < e.last24hSwaps) ∧
    (∀ st e, e ∈ topPairs7d st → 0 < e.periodSwaps) ∧
    (∀ st e, e ∈ topPairs30d st → 0 < e.periodSwaps) ∧
    (∀ st e, e ∈ topFeeSwapPairs24h st → 0 < e.last24hSwaps) ∧
    (∀ st e, e ∈ topFeeSwapPairs7d st → 0 < e.periodSwaps) ∧
    (∀ st e, e ∈ topFeeSwapPairs30d st → 0 < e.periodSwaps) ∧
    (∀ st e, e ∈ topSwappersByFeeVolume st → 0 < e.feeSwaps) ∧
    (∀ st e, e ∈ topSwappers24h st → 0 < e.last24hSwaps) ∧
    (∀ st e, e ∈ topSwappers7d st → 0 < e.last7dSwaps) ∧
    (∀ st e, e ∈ topSwappers30d st → 0 < e.last30dSwaps) ∧
    (∃ st e, e ∈ topPairsAllTime st ∧ e.last24hSwaps = 0 ∧ e.last24hVolumeUSD = 0 ∧
       0 < e.totalVolumeUSD) := by
  refine ⟨?_, ?_, ?_, ?_, ?_, ?_, ?_, ?_, ?_, ?_, ?_⟩
  · intro st e h
    unfold topPairs24h at h
    have hp := of_mem_ranked _ _ _ _ _ h
    simp only [decide_eq_true_eq] at hp
    exact hp
  · intro st e h
    unfold topPairs7d at h
    have hp := of_mem_ranked _ _ _ _ _ h
    simp only [decide_eq_true_eq] at hp
    exact hp
  · intro st e h
    unfold topPairs30d at h
    have hp := of_mem_ranked _ _ _ _ _ h
    simp only [decide_eq_true_eq] at hp
    exact hp
  · intro st e h
    unfold topFeeSwapPairs24h at h
    have hp := of_mem_ranked _ _ _ _ _ h
    simp only [decide_eq_true_eq] at hp
    exact hp
  · intro st e h
    unfold topFeeSwapPairs7d at h
    have hp := of_mem_ranked _ _ _ _ _ h
    simp only [decide_eq_true_eq] at hp
    exact hp
  · intro st e h
    unfold topFeeSwapPairs30d at h
    have hp := of_mem_ranked _ _ _ _ _ h
    simp only [decide_eq_true_eq] at hp
    exact hp
  · intro st e h
    unfold topSwappersByFeeVolume at h
    have hp := of_mem_ranked _ _ _ _ _ h
    simp only [decide_eq_true_eq] at hp
    exact hp
  · intro st e h
    unfold topSwappers24h at h
    have hp := of_mem_ranked _ _ _ _ _ h
    simp only [decide_eq_true_eq] at hp
    exact hp
  · intro st e h
    unfold topSwappers7d at h
    have hp := of_mem_ranked _ _ _ _ _ h
    simp only [decide_eq_true_eq] at hp
    exact hp
  · intro st e h
    unfold topSwappers30d at h
    have hp := of_mem_ranked _ _ _ _ _ h
    simp only [decide_eq_true_eq] at hp
    exact hp
  · refine ⟨runFold true 10000000000000 (fun id => if id = "near" then some 1 else none)
      [⟨0, none, some "intents:near", some "intents:usdc", some "1", some "1"⟩],
      ⟨"intents:near → intents:usdc", 1, 1, 0, 0⟩, ?_, rfl, rfl, by norm_num⟩
    have h : topPairsAllTime (runFold true 10000000000000
        (fun id => if id = "near" then some 1 else none)
        [⟨0, none, some "intents:near", some "intents:usdc", some "1", some "1"⟩]) =
        [⟨"intents:near → intents:usdc", 1, 1, 0, 0⟩] := by
      with_unfolding_all rfl
    rw [h]
    exact List.mem_singleton_self _

/-- C10, witness: the filter properties applied to a concrete one-event run
whose pair and account appear in the 24h and fee lists. -/
theorem claim_C10_witness :
    0 < (⟨"intents:near → intents:usdc", 1, 4, 1, 4⟩ : PairOut).last24hSwaps ∧
    0 < (⟨"alice.near", 1, 4, 1, 4, 1, 4, 1, 4, 1, 4⟩ : AccountOut).feeSwaps := by
  have hpair : topPairs24h (runFold true 0 (fun id => if id = "near" then some 2 else none)
      [⟨0, some "alice.near", some "intents:near", some "intents:usdc", some "2", some "3"⟩]) =
      [⟨"intents:near → intents:usdc", 1, 4, 1, 4⟩] := by
    with_unfolding_all rfl
  have hacct : topSwappersByFeeVolume (runFold true 0
      (fun id => if id = "near" then some 2 else none)
      [⟨0, some "alice.near", some "intents:near", some "intents:usdc", some "2", some "3"⟩]) =
      [⟨"alice.near", 1, 4, 1, 4, 1, 4, 1, 4, 1, 4⟩] := by
    with_unfolding_all rfl
  constructor
  · exact claim_C10.1
      (runFold true 0 (fun id => if id = "near" then some 2 else none)
        [⟨0, some "alice.near", some "intents:near", some "intents:usdc", some "2", some "3"⟩])
      ⟨"intents:near → intents:usdc", 1, 4, 1, 4⟩
      (by rw [hpair]; exact List.mem_singleton_self _)
  · exact claim_C10.2.2.2.2.2.2.1
      (runFold true 0 (fun id => if id = "near" then some 2 else none)
        [⟨0, some "alice.near", some "intents:near", some "intents:usdc", some "2", some "3"⟩])
      ⟨"alice.near", 1, 4, 1, 4, 1, 4, 1, 4, 1, 4⟩
      (by rw [hacct]; exact List.mem_singleton_self _)

theorem processEvent_some_eq (useIn : Bool) (now : ℤ) (prices : String → Option ℚ)
    (st : AggState) (ev : SwapEventRow) (a : ℚ)
    (h : parseDecimal (valuedAmountStr useIn ev) = some a) :
    processEvent useIn now prices st ev =
      foldEvent now ev.timestamp
        (volumeContribution prices (valuedTokenId useIn ev) ev.timestamp a)
        (ev.token_in_id.getD "") (ev.token_out_id.getD "") (ev.account_id.getD "")
        { st with diags := diagsAfter prices (valuedTokenId useIn ev) st.diags } := by
  simp [processEvent, h]

theorem foldEvent_diags (now t : ℤ) (vc : ℚ) (tIn tOut acc : String) (st : AggState) :
    (foldEvent now t vc tIn tOut acc st).diags = st.diags := rfl

theorem foldEvent_allTime_swaps (now t : ℤ) (vc : ℚ) (tIn tOut acc : String) (st : AggState) :
    (foldEvent now t vc tIn tOut acc st).metrics.allTime.swaps =
      st.metrics.allTime.swaps + 1 := rfl

theorem pairFold_vols (c1 c2 c3 : Prop) [Decidable c1] [Decidable c2] [Decidable c3]
    (pm : PairMetrics) :
    (PairMetrics.fold c1 c2 c3 0 pm).volumeUSD = pm.volumeUSD ∧
    (PairMetrics.fold c1 c2 c3 0 pm).last24h.volumeUSD = pm.last24h.volumeUSD ∧
    (PairMetrics.fold c1 c2 c3 0 pm).last7d.volumeUSD = pm.last7d.volumeUSD ∧
    (PairMetrics.fold c1 c2 c3 0 pm).last30d.volumeUSD = pm.last30d.volumeUSD := by
  refine ⟨by simp [PairMetrics.fold], ?_, ?_, ?_⟩ <;>
    · simp only [PairMetrics.fold]
      split_ifs <;> simp [TB.add]

theorem acctFold_vols (c1 c2 c3 c4 : Prop)
    [Decidable c1] [Decidable c2] [Decidable c3] [Decidable c4] (am : AccountMetrics) :
    (AccountMetrics.fold c1 c2 c3 c4 0 am).volumeUSD = am.volumeUSD ∧
    (AccountMetrics.fold c1 c2 c3 c4 0 am).feeVolumeUSD = am.feeVolumeUSD ∧
    (AccountMetrics.fold c1 c2 c3 c4 0 am).last24h.volumeUSD = am.last24h.volumeUSD ∧
    (AccountMetrics.fold c1 c2 c3 c4 0 am).last7d.volumeUSD = am.last7d.volumeUSD ∧
    (AccountMetrics.fold c1 c2 c3 c4 0 am).last30d.volumeUSD = am.last30d.volumeUSD := by
  refine ⟨by simp [AccountMetrics.fold], ?_, ?_, ?_, ?_⟩ <;>
    · simp only [AccountMetrics.fold]
      split_ifs <;> simp [TB.add]

theorem foldEvent_volumes_zero (now t : ℤ) (tIn tOut acc : String) (d : Diagnostics)
    (st : AggState) :
    volumesUnchanged st (foldEvent now t 0 tIn tOut acc { st with diags := d }) := by
  rw [volumesUnchanged]
  refine ⟨?_, ?_, ?_, ?_, ?_, ?_, ?_, ?_, ?_, ?_, ?_, ?_, ?_, ?_⟩
  · simp [foldEvent, foldGlobal, TB.add]
  · simp only [foldEvent, foldGlobal]
    split_ifs <;> simp [TB.add]
  · simp only [foldEvent, foldGlobal]
    split_ifs <;> simp [TB.add]
  · simp only [foldEvent, foldGlobal]
    split_ifs <;> simp [TB.add]
  · simp only [foldEvent, foldGlobal]
    split_ifs <;> simp [TB.add]
  · simp only [foldEvent, foldGlobal]
    split_ifs <;> simp [TB.add]
  · simp only [foldEvent, foldGlobal]
    split_ifs <;> simp [TB.add]
  · simp only [foldEvent]
    split_ifs <;> simp [FeeTotals.fold, TB.add]
  · simp only [foldEvent]
    split_ifs
    · simp only [FeeTotals.fold]
      split_ifs <;> simp [TB.add]
    · rfl
  · simp only [foldEvent]
    split_ifs
    · simp only [FeeTotals.fold]
      split_ifs <;> simp [TB.add]
    · rfl
  · simp only [foldEvent]
    split_ifs
    · simp only [FeeTotals.fold]
      split_ifs <;> simp [TB.add]
    · rfl
  · intro k
    simp only [foldEvent]
    split_ifs with hdo
    · rw [pairVolsAt, pairVolsAt, findVal_updateEntry]
      split_ifs with hk
      · obtain ⟨h1, h2, h3, h4⟩ := pairFold_vols (t ≥ tf24h now) (t ≥ tf7d now) (t ≥ tf30d now)
          ((findVal st.tradingPairs (tIn ++ " → " ++ tOut)).getD PairMetrics.init)
        subst hk
        simp [h1, h2, h3, h4]
      · rfl
    · rfl
  · intro k
    simp only [foldEvent]
    split_ifs with hdo
    · rw [pairVolsAt, pairVolsAt, findVal_updateEntry]
      split_ifs with hk
      · obtain ⟨h1, h2, h3, h4⟩ := pairFold_vols (t ≥ tf24h now) (t ≥ tf7d now) (t ≥ tf30d now)
          ((findVal st.feeSwapPairs (tIn ++ " → " ++ tOut)).getD PairMetrics.init)
        subst hk
        simp [h1, h2, h3, h4]
      · rfl
    · rfl
  · intro k
    simp only [foldEvent]
    split_ifs with hacc
    · rw [acctVolsAt, acctVolsAt, findVal_updateEntry]
      split_ifs with hk
      · obtain ⟨h1, h2, h3, h4, h5⟩ := acctFold_vols (t ≥ tf24h now) (t ≥ tf7d now)
          (t ≥ tf30d now)
          ((tIn ≠ "" ∧ tOut ≠ "") ∧ isDepositWithdrawPair tIn tOut = false)
          ((findVal st.accounts acc).getD AccountMetrics.init)
        subst hk
        simp [h1, h2, h3, h4, h5]
      · rfl
    · rfl

/-- C3, counterexample: an event with the unmapped token id `xyz:unknown` is
recorded in `unmappedIntentTokenIds` and contributes zero volume, but its
swap count still lands in the all-time accumulator (`totalSwaps = 1`) —
refuting the claim that the event contributes to no accumulator at all. -/
theorem claim_C3_counterexample :
    (processEvent true 0 (fun _ => none) initState
        ⟨0, none, some "xyz:unknown", none, some "1", none⟩).diags.unmappedIntentTokenIds =
      ["xyz:unknown"] ∧
    (processEvent true 0 (fun _ => none) initState
        ⟨0, none, some "xyz:unknown", none, some "1", none⟩).metrics.allTime.swaps = 1 := by
  constructor
  · with_unfolding_all decide
  · with_unfolding_all decide

/-- C3, amended: for an event whose amount parses but whose token id fails to
map (resp. whose price id has no price), exactly one diagnostic set records
the skip (the other set and `badAmounts` are untouched) and the event
contributes zero volume to every accumulator, but its swap count still
increments the counters — the all-time swap count grows by one. -/
theorem claim_C3 (useIn : Bool) (now : ℤ) (prices : String → Option ℚ) (st : AggState)
    (ev : SwapEventRow) (a : ℚ)
    (hparse : parseDecimal (valuedAmountStr useIn ev) = some a) :
    (intentsToPriceId (valuedTokenId useIn ev) = none →
       (processEvent useIn now prices st ev).diags.unmappedIntentTokenIds =
         addToSet st.diags.unmappedIntentTokenIds
           (if valuedTokenId useIn ev = "" then "(empty)" else valuedTokenId useIn ev) ∧
       (processEvent useIn now prices st ev).diags.priceIdMissing = st.diags.priceIdMissing ∧
       (processEvent useIn now prices st ev).diags.badAmounts = st.diags.badAmounts ∧
       volumesUnchanged st (processEvent useIn now prices st ev) ∧
       (processEvent useIn now prices st ev).metrics.allTime.swaps =
         st.metrics.allTime.swaps + 1) ∧
    (∀ pid, intentsToPriceId (valuedTokenId useIn ev) = some pid → prices pid = none →
       (processEvent useIn now prices st ev).diags.priceIdMissing =
         addToSet st.diags.priceIdMissing pid ∧
       (processEvent useIn now prices st ev).diags.unmappedIntentTokenIds =
         st.diags.unmappedIntentTokenIds ∧
       (processEvent useIn now prices st ev).diags.badAmounts = st.diags.badAmounts ∧
       volumesUnchanged st (processEvent useIn now prices st ev) ∧
       (processEvent useIn now prices st ev).metrics.allTime.swaps =
         st.metrics.allTime.swaps + 1) := by
  rw [processEvent_some_eq useIn now prices st ev a hparse]
  constructor
  · intro hun
    have hvc : volumeContribution prices (valuedTokenId useIn ev) ev.timestamp a = 0 := by
      simp [volumeContribution, hun]
    rw [hvc]
    refine ⟨?_, ?_, ?_, foldEvent_volumes_zero _ _ _ _ _ _ _, foldEvent_allTime_swaps _ _ _ _ _ _ _⟩
    · rw [foldEvent_diags]
      simp [diagsAfter, hun]
    · rw [foldEvent_diags]
      simp [diagsAfter, hun]
    · rw [foldEvent_diags]
      simp [diagsAfter, hun]
  · intro pid hmap hmiss
    have hvc : volumeContribution prices (valuedTokenId useIn ev) ev.timestamp a = 0 := by
      simp [volumeContribution, hmap, hmiss]
    rw [hvc]
    refine ⟨?_, ?_, ?_, foldEvent_volumes_zero _ _ _ _ _ _ _, foldEvent_allTime_swaps _ _ _ _ _ _ _⟩
    · rw [foldEvent_diags]
      simp [diagsAfter, hmap, hmiss]
    · rw [foldEvent_diags]
      simp [diagsAfter, hmap, hmiss]
    · rw [foldEvent_diags]
      simp [diagsAfter, hmap, hmiss]

/-- C3, witness: the unmapped-token branch of the amended claim at a concrete
event — the swap count grows while every volume stays put. -/
theorem claim_C3_witness :
    (processEvent true 0 (fun _ => none) initState
        ⟨0, none, some "abc:def", none, some "2", none⟩).metrics.allTime.swaps =
      initState.metrics.allTime.swaps + 1 ∧
    volumesUnchanged initState (processEvent true 0 (fun _ => none) initState
        ⟨0, none, some "abc:def", none, some "2", none⟩) := by
  have h := (claim_C3 true 0 (fun _ => none) initState
    ⟨0, none, some "abc:def", none, some "2", none⟩ 2 (by with_unfolding_all decide)).1
    (by decide)
  exact ⟨h.2.2.2.2, h.2.2.2.1⟩

theorem isDW_ne_empty (a b : String) (h : isDepositWithdrawPair a b = true) :
    ¬ a = "" ∧ ¬ b = "" := by
  have hkeys1 : ∀ p ∈ nativeToIntentMap, ¬ p.1 = "" ∧ ¬ strToLower p.2 = "" := by decide
  have hkeys2 : ∀ p ∈ intentToNativeMap, ¬ p.1 = "" ∧ ¬ strToLower p.2 = "" := by decide
  simp only [isDepositWithdrawPair] at h
  cases h1 : findVal nativeToIntentMap (strToLower a) with
  | some ie =>
      rw [h1] at h
      dsimp only at h
      have hmem := findVal_mem h1
      have hane : ¬ a = "" := by
        intro ha
        subst ha
        exact (hkeys1 _ hmem).1 rfl
      split_ifs at h with h2
      · refine ⟨hane, ?_⟩
        intro hb
        subst hb
        exact (hkeys1 _ hmem).2 h2
      · cases h3 : findVal intentToNativeMap (strToLower a) with
        | some nv =>
            rw [h3] at h
            dsimp only at h
            have heq : strToLower nv = strToLower b := of_decide_eq_true h
            have hmem2 := findVal_mem h3
            refine ⟨hane, ?_⟩
            intro hb
            subst hb
            exact (hkeys2 _ hmem2).2 heq
        | none =>
            rw [h3] at h
            dsimp only at h
            cases h
  | none =>
      rw [h1] at h
      dsimp only at h
      cases h3 : findVal intentToNativeMap (strToLower a) with
      | some nv =>
          rw [h3] at h
          dsimp only at h
          have hmem2 := findVal_mem h3
          have hane : ¬ a = "" := by
            intro ha
            subst ha
            exact (hkeys2 _ hmem2).1 rfl
          have heq : strToLower nv = strToLower b := of_decide_eq_true h
          refine ⟨hane, ?_⟩
          intro hb
          subst hb
          exact (hkeys2 _ hmem2).2 heq
      | none =>
          rw [h3] at h
          dsimp only at h
          cases h

theorem foldEvent_fee_frozen (now t : ℤ) (vc : ℚ) (tIn tOut acc : String) (st : AggState)
    (hdw : isDepositWithdrawPair tIn tOut = true) :
    (foldEvent now t vc tIn tOut acc st).feeSwaps = st.feeSwaps ∧
    (foldEvent now t vc tIn tOut acc st).feeSwapPairs = st.feeSwapPairs ∧
    ∀ k, acctFeeAt (foldEvent now t vc tIn tOut acc st).accounts k =
      acctFeeAt st.accounts k := by
  refine ⟨?_, ?_, ?_⟩
  · simp [foldEvent, hdw]
  · simp [foldEvent, hdw]
  · intro k
    simp only [foldEvent]
    split_ifs with hacc
    · rw [acctFeeAt, acctFeeAt, findVal_updateEntry]
      split_ifs with hk
      · subst hk
        simp [AccountMetrics.fold, acctFeeAt, hdw]
      · rfl
    · rfl

/-- C6, counterexample: a deposit/withdraw-pair event whose amount string does
not parse is skipped entirely, so it is NOT folded into the trading-pair
accumulators — refuting the claim that every event of an equivalent pair
reaches the pair accumulators. -/
theorem claim_C6_counterexample :
    isDepositWithdrawPair "near-native" "intents:near" = true ∧
    (processEvent true 0 (fun _ => none) initState
        ⟨0, none, some "near-native", some "intents:near", some "zzz", none⟩).tradingPairs =
      [] ∧
    (processEvent true 0 (fun _ => none) initState
        ⟨0, none, some "near-native", some "intents:near", some "zzz", none⟩).diags.badAmounts =
      1 := by
  refine ⟨by decide, by with_unfolding_all decide, by with_unfolding_all decide⟩

/-- C6, amended: an event of a deposit/withdraw-equivalent pair is never
folded into the `feeSwaps` totals, the fee-swap pair accumulators, or any
account's fee-eligible sub-totals; and when its amount parses it is folded
into the trading-pair accumulators (its pair swap count increments). -/
theorem claim_C6 (useIn : Bool) (now : ℤ) (prices : String → Option ℚ) (st : AggState)
    (ev : SwapEventRow)
    (hdw : isDepositWithdrawPair (ev.token_in_id.getD "") (ev.token_out_id.getD "") = true) :
    (processEvent useIn now prices st ev).feeSwaps = st.feeSwaps ∧
    (processEvent useIn now prices st ev).feeSwapPairs = st.feeSwapPairs ∧
    (∀ k, acctFeeAt (processEvent useIn now prices st ev).accounts k =
      acctFeeAt st.accounts k) ∧
    (∀ a, parseDecimal (valuedAmountStr useIn ev) = some a →
       pairSwapsAt (processEvent useIn now prices st ev).tradingPairs
           ((ev.token_in_id.getD "") ++ " → " ++ (ev.token_out_id.getD "")) =
         pairSwapsAt st.tradingPairs
           ((ev.token_in_id.getD "") ++ " → " ++ (ev.token_out_id.getD "")) + 1) := by
  cases hp : parseDecimal (valuedAmountStr useIn ev) with
  | none =>
      have hsteq : processEvent useIn now prices st ev =
          { st with diags := { st.diags with badAmounts := st.diags.badAmounts + 1 } } := by
        simp [processEvent, hp]
      rw [hsteq]
      exact ⟨rfl, rfl, fun _ => rfl, fun a ha => by cases ha⟩
  | some a =>
      rw [processEvent_some_eq useIn now prices st ev a hp]
      obtain ⟨hfee, hfeePairs, hacct⟩ := foldEvent_fee_frozen now ev.timestamp
        (volumeContribution prices (valuedTokenId useIn ev) ev.timestamp a)
        (ev.token_in_id.getD "") (ev.token_out_id.getD "") (ev.account_id.getD "")
        { st with diags := diagsAfter prices (valuedTokenId useIn ev) st.diags } hdw
      refine ⟨hfee, hfeePairs, hacct, ?_⟩
      intro a' _
      have hne := isDW_ne_empty _ _ hdw
      rw [pairSwapsAt, pairSwapsAt]
      simp only [foldEvent]
      rw [if_pos ⟨hne.1, hne.2⟩, findVal_updateEntry, if_pos rfl]
      rfl

/-- C6, witness: a parsed deposit event (`near-native → intents:near`) leaves
the fee totals untouched and increments its trading-pair swap count. -/
theorem claim_C6_witness :
    (processEvent true 0 (fun _ => none) initState
        ⟨0, some "alice.near", some "near-native", some "intents:near", some "4", none⟩).feeSwaps =
      initState.feeSwaps ∧
    pairSwapsAt (processEvent true 0 (fun _ => none) initState
        ⟨0, some "alice.near", some "near-native", some "intents:near", some "4",
          none⟩).tradingPairs "near-native → intents:near" =
      pairSwapsAt initState.tradingPairs "near-native → intents:near" + 1 := by
  have h := claim_C6 true 0 (fun _ => none) initState
    ⟨0, some "alice.near", some "near-native", some "intents:near", some "4", none⟩ (by decide)
  exact ⟨h.1, h.2.2.2 4 (by with_unfolding_all decide)⟩

end SwapDash
